import Mathlib

/-!
Verification of the persistence layer of the Crypto-DeFi-Analyze Telegram bot
(`src/data/database.py`).

The MongoDB store is shallowly embedded: every collection is a `List` of typed
documents, and the pymongo primitives used by the source (`find_one`,
`update_one` with and without `upsert`, `update_many`, `delete_one`,
`delete_many`) are modelled as list operations that act on the first matching
element, exactly as MongoDB does.  Wall-clock time (`datetime.now()`) is an
explicit `now : Nat` parameter; `timedelta(days=n)` is `n * day` with
`day = 86400` seconds.  Python's `str.lower()` is `String.lowerStr`.
-/

universe u
variable {α : Type u}

/-- `update_one(filter, {$set|$inc: ...})` without upsert: rewrite the first
matching document, leave everything else alone; no match means no change. -/
def update_one (p : α → Bool) (f : α → α) : List α → List α
  | [] => []
  | x :: xs => if p x then f x :: xs else x :: update_one p f xs

/-- `update_one(filter, ..., upsert=True)`: rewrite the first matching
document; if none matches, insert the document MongoDB materialises from the
filter and the update operators. -/
def update_one_upsert (p : α → Bool) (f : α → α) (ins : α) : List α → List α
  | [] => [ins]
  | x :: xs => if p x then f x :: xs else x :: update_one_upsert p f ins xs

/-- `delete_one(filter)`: remove the first matching document, if any. -/
def delete_one (p : α → Bool) : List α → List α
  | [] => []
  | x :: xs => if p x then xs else x :: delete_one p xs

/-- `delete_many(filter)`: remove every matching document. -/
def delete_many (p : α → Bool) (l : List α) : List α :=
  l.filter fun x => !(p x)

/-- `update_many(filter, {$set: ...})`: rewrite every matching document. -/
def update_many (p : α → Bool) (f : α → α) (l : List α) : List α :=
  l.map fun x => if p x then f x else x

/-- One day, in seconds: the granularity of `timedelta(days=...)`. -/
def day : Nat := 86400

/-- Python's `str.lower()` on one character, for the ASCII alphabet of the
addresses and names this store normalizes. -/
def lowerChar (c : Char) : Char :=
  if 'A' ≤ c ∧ c ≤ 'Z' then Char.ofNat (c.toNat + 32) else c

/-- Python's `str.lower()` on the ASCII strings this store normalizes. -/
def String.lowerStr (s : String) : String := ⟨s.data.map lowerChar⟩

/-- A document of the `users` collection.  Fields a fresh document may lack are
`Option`-valued; `referral_count` defaults to `0`, matching `$inc` semantics on
an absent field. -/
structure UserDoc where
  user_id : Nat := 0
  is_premium : Bool := false
  premium_until : Option Nat := none
  premium_plan : Option String := none
  payment_currency : Option String := none
  last_payment_id : Option String := none
  updated_at : Option Nat := none
  is_admin : Bool := false
  referral_code : Option String := none
  referral_count : Nat := 0
  last_active : Option Nat := none
deriving DecidableEq, Repr

/-- A document of the `user_scans` collection. -/
structure ScanDoc where
  user_id : Nat := 0
  scan_type : String := ""
  date : String := ""
  count : Nat := 0
deriving DecidableEq, Repr

/-- A document of the `token_data` collection (`TokenData.to_dict()`): the
normalized address key, profile payload, and the `last_updated` stamp. -/
structure TokenDoc where
  address : String := ""
  deployer : String := ""
  name : String := ""
  last_updated : Nat := 0
deriving DecidableEq, Repr

/-- A document of the `wallet_data` collection (`WalletData.to_dict()`). -/
structure WalletDoc where
  address : String := ""
  name : String := ""
  last_updated : Nat := 0
deriving DecidableEq, Repr

/-- A document of the `kol_wallets` collection (`KOLWallet.to_dict()`).
Modelled from the spec: `data/models.py` is not in the sources; the spec's
data-model table gives every entity profile (Token / Wallet / KOL) profile
fields plus a `last_updated` timestamp. -/
structure KOLDoc where
  address : String := ""
  name : String := ""
  last_updated : Nat := 0
deriving DecidableEq, Repr

/-- A document of the `tracking_subscriptions` collection. -/
structure SubDoc where
  user_id : Nat := 0
  tracking_type : String := ""
  target_address : String := ""
  is_active : Bool := true
deriving DecidableEq, Repr

/-- A document of the `referrals` collection. -/
structure RefDoc where
  referrer_id : Nat := 0
  referred_id : Nat := 0
  date : Nat := 0
deriving DecidableEq, Repr

/-- A document of the `transactions` collection. -/
structure TxDoc where
  user_id : Nat := 0
  type : String := ""
  plan_type : String := ""
  currency : String := ""
  amount : Nat := 0
  duration_days : Nat := 0
  network : String := ""
  transaction_id : Option String := none
  date : Nat := 0
deriving DecidableEq, Repr

/-- The whole database: the collections `database.py` touches. -/
structure Db where
  users : List UserDoc := []
  user_scans : List ScanDoc := []
  token_data : List TokenDoc := []
  wallet_data : List WalletDoc := []
  kol_wallets : List KOLDoc := []
  tracking_subscriptions : List SubDoc := []
  referrals : List RefDoc := []
  transactions : List TxDoc := []
deriving DecidableEq, Repr

/-- Result shape of the external pricing lookup `get_plan_payment_details`.
Modelled from the spec: `services/payment.py` is not in the sources; the spec
gives the shape `{currency, amount, duration_days, network}`. -/
structure PaymentDetails where
  currency : String := ""
  amount : Nat := 0
  duration_days : Nat := 0
  network : String := ""
deriving DecidableEq, Repr

/-! ## The store operations of `database.py` -/

/-- `update_user_activity`: `$set` the `last_active` stamp; no upsert. -/
def update_user_activity (now : Nat) (user_id : Nat) (db : Db) : Db :=
  { db with users := (update_one (fun u => u.user_id == user_id)
      (fun u => { u with last_active := some now }) db.users) }

/-- `set_premium_status`: `$set` `is_premium` and `premium_until`
(`now + duration_days` when granting, `None` when revoking); no upsert. -/
def set_premium_status (now : Nat) (user_id : Nat) (is_premium : Bool)
    (duration_days : Nat) (db : Db) : Db :=
  { db with users := (update_one (fun u => u.user_id == user_id)
      (fun u => { u with is_premium := is_premium,
                         premium_until :=
                           if is_premium then some (now + duration_days * day)
                           else none }) db.users) }

/-- The `user_scans` key filter `{user_id, scan_type, date}`. -/
def scanKeyMatch (user_id : Nat) (scan_type date : String) (x : ScanDoc) : Bool :=
  x.user_id == user_id && x.scan_type == scan_type && x.date == date

/-- `get_user_scan_count`: the `count` of the key's document, `0` if absent. -/
def get_user_scan_count (user_id : Nat) (scan_type date : String) (db : Db) : Nat :=
  match db.user_scans.find? (scanKeyMatch user_id scan_type date) with
  | some s => s.count
  | none => 0

/-- `increment_user_scan_count`: `$inc count by 1` with upsert, so an absent
key gets a fresh document holding the filter fields and `count = 1`. -/
def increment_user_scan_count (user_id : Nat) (scan_type date : String) (db : Db) : Db :=
  { db with user_scans := (update_one_upsert (scanKeyMatch user_id scan_type date)
      (fun s => { s with count := s.count + 1 })
      { user_id := user_id, scan_type := scan_type, date := date, count := 1 }
      db.user_scans) }

/-- `reset_user_scan_counts`: `delete_many({date: {$ne: today}})`. -/
def reset_user_scan_counts (today : String) (db : Db) : Db :=
  { db with user_scans := delete_many (fun s => !(s.date == today)) db.user_scans }

/-- `get_token_data`: look up by the lowercased address. -/
def get_token_data (address : String) (db : Db) : Option TokenDoc :=
  db.token_data.find? fun t => t.address == address.lowerStr

/-- `save_token_data`: lowercase the address, stamp `last_updated := now`,
upsert by the normalized address. -/
def save_token_data (now : Nat) (token : TokenDoc) (db : Db) : Db :=
  let dict : TokenDoc := { token with address := token.address.lowerStr,
                                      last_updated := now }
  { db with token_data := (update_one_upsert (fun t => t.address == dict.address)
      (fun _ => dict) dict db.token_data) }

/-- `get_wallet_data`: look up by the lowercased address. -/
def get_wallet_data (address : String) (db : Db) : Option WalletDoc :=
  db.wallet_data.find? fun w => w.address == address.lowerStr

/-- `save_wallet_data`: lowercase the address, stamp `last_updated := now`,
upsert by the normalized address. -/
def save_wallet_data (now : Nat) (wallet : WalletDoc) (db : Db) : Db :=
  let dict : WalletDoc := { wallet with address := wallet.address.lowerStr,
                                        last_updated := now }
  { db with wallet_data := (update_one_upsert (fun w => w.address == dict.address)
      (fun _ => dict) dict db.wallet_data) }

/-- `save_kol_wallet`: lowercase the address and upsert the dict as-is.
Unlike `save_token_data` and `save_wallet_data`, the source stamps no
`last_updated` here; the `_now` parameter is the ambient clock the source
leaves unread. -/
def save_kol_wallet (_now : Nat) (kol : KOLDoc) (db : Db) : Db :=
  let dict : KOLDoc := { kol with address := kol.address.lowerStr }
  { db with kol_wallets := (update_one_upsert (fun k => k.address == dict.address)
      (fun _ => dict) dict db.kol_wallets) }

/-- The `tracking_subscriptions` key filter with a normalized address. -/
def subKeyMatch (user_id : Nat) (tracking_type target_address : String)
    (x : SubDoc) : Bool :=
  x.user_id == user_id && x.tracking_type == tracking_type &&
    x.target_address == target_address.lowerStr

/-- `get_user_tracking_subscriptions`: the user's active subscriptions. -/
def get_user_tracking_subscriptions (user_id : Nat) (db : Db) : List SubDoc :=
  db.tracking_subscriptions.filter fun s => s.user_id == user_id && s.is_active

/-- `get_tracking_subscription`: look up one subscription by its key. -/
def get_tracking_subscription (user_id : Nat) (tracking_type target_address : String)
    (db : Db) : Option SubDoc :=
  db.tracking_subscriptions.find? (subKeyMatch user_id tracking_type target_address)

/-- `save_tracking_subscription`: lowercase the target address and upsert the
dict by the `(user_id, tracking_type, target_address)` key. -/
def save_tracking_subscription (sub : SubDoc) (db : Db) : Db :=
  let dict : SubDoc := { sub with target_address := sub.target_address.lowerStr }
  { db with tracking_subscriptions :=
      (update_one_upsert (subKeyMatch sub.user_id sub.tracking_type sub.target_address)
        (fun _ => dict) dict db.tracking_subscriptions) }

/-- `delete_tracking_subscription`: `delete_one` by the normalized key. -/
def delete_tracking_subscription (user_id : Nat) (tracking_type target_address : String)
    (db : Db) : Db :=
  { db with tracking_subscriptions :=
      (delete_one (subKeyMatch user_id tracking_type target_address)
        db.tracking_subscriptions) }

/-- The filter of `cleanup_expired_premium`: `is_premium` and a `premium_until`
of Date type strictly below `now` (a BSON null never matches `$lt <date>`). -/
def premiumExpired (now : Nat) (u : UserDoc) : Bool :=
  u.is_premium && match u.premium_until with
    | some t => decide (t < now)
    | none => false

/-- `cleanup_expired_premium`: `update_many` clearing the premium flag and
expiry of every expired premium user. -/
def cleanup_expired_premium (now : Nat) (db : Db) : Db :=
  { db with users := (update_many (premiumExpired now)
      (fun u => { u with is_premium := false, premium_until := none }) db.users) }

/-- `get_users_with_expiring_premium`: premium users whose `premium_until`
lies in `[now + d day, now + d day + 1 day)` for some `d` in `days_left`
(the `$or` of the per-offset range filters). -/
def get_users_with_expiring_premium (now : Nat) (days_left : List Nat)
    (db : Db) : List UserDoc :=
  db.users.filter fun u => u.is_premium && days_left.any fun d =>
    match u.premium_until with
    | some t => decide (now + d * day ≤ t) && decide (t < now + d * day + day)
    | none => false

/-- `set_user_admin_status`: `$set is_admin`; no upsert. -/
def set_user_admin_status (user_id : Nat) (is_admin : Bool) (db : Db) : Db :=
  { db with users := (update_one (fun u => u.user_id == user_id)
      (fun u => { u with is_admin := is_admin }) db.users) }

/-- `record_referral`: upsert the `(referrer_id, referred_id)` edge with a
fresh date, then unconditionally `$inc` the referrer's `referral_count`. -/
def record_referral (now : Nat) (referrer_id referred_id : Nat) (db : Db) : Db :=
  let db1 : Db :=
    { db with referrals := (update_one_upsert
        (fun r => r.referrer_id == referrer_id && r.referred_id == referred_id)
        (fun _ => { referrer_id := referrer_id, referred_id := referred_id, date := now })
        { referrer_id := referrer_id, referred_id := referred_id, date := now }
        db.referrals) }
  { db1 with users := (update_one (fun u => u.user_id == referrer_id)
      (fun u => { u with referral_count := u.referral_count + 1 }) db1.users) }

/-- `update_user_premium_status`: `$set` the user's premium and payment fields,
then call the external pricing lookup, then insert the transaction row.  A
failing lookup raises after the user update has already been written, so the
result pairs the store state with a success flag. -/
def update_user_premium_status (lookup : String → String → Option PaymentDetails)
    (now : Nat) (user_id : Nat) (is_premium : Bool) (premium_until : Nat)
    (plan : String) (payment_currency : String) (transaction_id : Option String)
    (db : Db) : Db × Bool :=
  let db1 : Db :=
    { db with users := (update_one (fun u => u.user_id == user_id)
        (fun u => { u with is_premium := is_premium,
                           premium_until := some premium_until,
                           premium_plan := some plan,
                           payment_currency := some payment_currency,
                           last_payment_id := transaction_id,
                           updated_at := some now }) db.users) }
  match lookup plan payment_currency with
  | none => (db1, false)
  | some pd =>
      ({ db1 with transactions := (db1.transactions ++
          [{ user_id := user_id, type := "premium_purchase", plan_type := plan,
             currency := pd.currency, amount := pd.amount,
             duration_days := pd.duration_days, network := pd.network,
             transaction_id := transaction_id, date := now }]) }, true)

/-! ## Sample stores and documents used to instantiate the theorems -/

/-- An empty store. -/
def emptyDb : Db := {}

/-- A store holding one user, id 1, with every field at its fresh default. -/
def oneUserDb : Db := { users := [{ user_id := 1 }] }

/-- A KOL wallet carrying a stale `last_updated` stamp of `5`. -/
def sampleKol : KOLDoc := { address := "A", name := "bob", last_updated := 5 }

/-- A token profile whose address arrives in upper case. -/
def sampleToken : TokenDoc := { address := "ABC", deployer := "dep", name := "tok" }

/-- A wallet profile whose address arrives in mixed case. -/
def sampleWallet : WalletDoc := { address := "DeF", name := "w" }

/-- A fresh tracking subscription with a mixed-case target. -/
def subNew : SubDoc :=
  { user_id := 7, tracking_type := "wallet", target_address := "XY" }

/-- A re-subscription of the same key with different payload fields. -/
def subRe : SubDoc :=
  { user_id := 7, tracking_type := "wallet", target_address := "xY", is_active := false }

/-- A store with scan counters on two different dates. -/
def scansDb : Db :=
  { user_scans := [{ user_id := 1, scan_type := "token", date := "2025-01-01", count := 3 },
                   { user_id := 1, scan_type := "token", date := "2025-01-02", count := 5 }] }

/-- A store with one expired and one still-running premium user. -/
def premiumDb : Db :=
  { users := [{ user_id := 1, is_premium := true, premium_until := some 10 },
              { user_id := 2, is_premium := true, premium_until := some 100 }] }

/-- A store with one premium user expiring one and a half days from time 0. -/
def expiringDb : Db :=
  { users := [{ user_id := 3, is_premium := true, premium_until := some 129600 }] }

/-! ## Lemmas about the pymongo primitives -/

theorem update_one_of_forall_neg (p : α → Bool) (f : α → α) :
    ∀ l : List α, (∀ x ∈ l, p x = false) → update_one p f l = l
  | [] => fun _ => rfl
  | x :: xs => fun h => by
      have hx : p x = false := h x (List.mem_cons_self x xs)
      have ih := update_one_of_forall_neg p f xs
        (fun y hy => h y (List.mem_cons_of_mem x hy))
      simp [update_one, hx, ih]

theorem delete_one_of_forall_neg (p : α → Bool) :
    ∀ l : List α, (∀ x ∈ l, p x = false) → delete_one p l = l
  | [] => fun _ => rfl
  | x :: xs => fun h => by
      have hx : p x = false := h x (List.mem_cons_self x xs)
      have ih := delete_one_of_forall_neg p xs
        (fun y hy => h y (List.mem_cons_of_mem x hy))
      simp [delete_one, hx, ih]

theorem update_one_getElem? (p : α → Bool) (f : α → α) :
    ∀ (l : List α) (i : Nat) (x : α), List.countP p l ≤ 1 → l[i]? = some x →
      (update_one p f l)[i]? = some (if p x then f x else x)
  | [], i, x, _, hx => by simp at hx
  | y :: ys, i, x, hc, hx => by
      by_cases hy : p y = true
      · have hzero : List.countP p ys = 0 := by
          have h1 := List.countP_cons p y ys
          rw [if_pos hy] at h1
          omega
        cases i with
        | zero =>
            have hxy : x = y := by simpa using hx.symm
            subst hxy
            simp [update_one, hy]
        | succ j =>
            have hxs : ys[j]? = some x := by simpa using hx
            have hmem : x ∈ ys := List.getElem?_mem hxs
            have hpx : p x = false := by
              have := (List.countP_eq_zero).1 hzero x hmem
              simpa using this
            simp [update_one, hy, hpx, hxs]
      · have hys : List.countP p ys ≤ 1 := by
          have h1 := List.countP_cons p y ys
          rw [if_neg hy] at h1
          omega
        cases i with
        | zero =>
            have hxy : x = y := by simpa using hx.symm
            subst hxy
            simp [update_one, hy, Bool.of_not_eq_true hy]
        | succ j =>
            have hxs : ys[j]? = some x := by simpa using hx
            have ih := update_one_getElem? p f ys j x hys hxs
            simp [update_one, hy, ih]

theorem find?_update_one_upsert (p : α → Bool) (f : α → α) (ins : α)
    (hins : p ins = true) (hf : ∀ x, p x = true → p (f x) = true) :
    ∀ l : List α, (update_one_upsert p f ins l).find? p =
      some (match l.find? p with | some r => f r | none => ins)
  | [] => by simp [update_one_upsert, List.find?, hins]
  | x :: xs => by
      by_cases hx : p x = true
      · simp [update_one_upsert, hx, List.find?, hf x hx]
      · have ih := find?_update_one_upsert p f ins hins hf xs
        simp only [update_one_upsert, if_neg hx]
        rw [List.find?_cons_of_neg _ hx, List.find?_cons_of_neg _ hx]
        exact ih

theorem find?_update_one_upsert_const (p : α → Bool) (d : α) (hd : p d = true)
    (l : List α) :
    (update_one_upsert p (fun _ => d) d l).find? p = some d := by
  rw [find?_update_one_upsert p (fun _ => d) d hd (fun _ _ => hd) l]
  cases l.find? p <;> rfl

theorem find?_update_one_upsert_frame (p q : α → Bool) (f : α → α) (ins : α)
    (hqins : q ins = false) (hqf : ∀ x, q (f x) = q x)
    (hdisj : ∀ x, p x = true → q x = false) :
    ∀ l : List α, (update_one_upsert p f ins l).find? q = l.find? q
  | [] => by simp [update_one_upsert, List.find?, hqins]
  | x :: xs => by
      by_cases hx : p x = true
      · have hqx : q x = false := hdisj x hx
        have hqfx : q (f x) = false := by rw [hqf]; exact hqx
        simp only [update_one_upsert, if_pos hx]
        rw [List.find?_cons_of_neg _ (by simp [hqfx]),
            List.find?_cons_of_neg _ (by simp [hqx])]
      · have ih := find?_update_one_upsert_frame p q f ins hqins hqf hdisj xs
        simp only [update_one_upsert, if_neg hx]
        by_cases hqx : q x = true
        · rw [List.find?_cons_of_pos _ hqx, List.find?_cons_of_pos _ hqx]
        · rw [List.find?_cons_of_neg _ hqx, List.find?_cons_of_neg _ hqx]
          exact ih

theorem countP_update_one_upsert (p : α → Bool) (f : α → α) (ins : α)
    (hins : p ins = true) (hf : ∀ x, p x = true → p (f x) = true) :
    ∀ l : List α, List.countP p l ≤ 1 →
      List.countP p (update_one_upsert p f ins l) = 1
  | [], _ => by simp [update_one_upsert, List.countP_cons, hins]
  | x :: xs, hc => by
      by_cases hx : p x = true
      · have hzero : List.countP p xs = 0 := by
          have h1 := List.countP_cons p x xs
          rw [if_pos hx] at h1
          omega
        simp only [update_one_upsert, if_pos hx]
        rw [List.countP_cons]
        simp [hf x hx, hzero]
      · have hxs : List.countP p xs ≤ 1 := by
          have h1 := List.countP_cons p x xs
          rw [if_neg hx] at h1
          omega
        have ih := countP_update_one_upsert p f ins hins hf xs hxs
        simp only [update_one_upsert, if_neg hx]
        rw [List.countP_cons, ih, if_neg hx]

theorem delete_one_forall_neg_of_countP_le_one (p : α → Bool) :
    ∀ l : List α, List.countP p l ≤ 1 → ∀ x ∈ delete_one p l, p x = false
  | [], _ => by simp [delete_one]
  | y :: ys, hc => by
      by_cases hy : p y = true
      · have hzero : List.countP p ys = 0 := by
          have h1 := List.countP_cons p y ys
          rw [if_pos hy] at h1
          omega
        simp only [delete_one, if_pos hy]
        intro x hx
        have := (List.countP_eq_zero).1 hzero x hx
        simpa using this
      · have hys : List.countP p ys ≤ 1 := by
          have h1 := List.countP_cons p y ys
          rw [if_neg hy] at h1
          omega
        have ih := delete_one_forall_neg_of_countP_le_one p ys hys
        simp only [delete_one, if_neg hy]
        intro x hx
        rcases List.mem_cons.1 hx with h | h
        · subst h; exact Bool.of_not_eq_true hy
        · exact ih x h

theorem find?_filter_eq_none (p q : α → Bool) (l : List α)
    (h : ∀ x, p x = true → q x = false) : (l.filter q).find? p = none := by
  rw [List.find?_eq_none]
  intro x hx
  have hq : q x = true := (List.mem_filter.1 hx).2
  intro hp
  rw [h x hp] at hq
  exact Bool.false_ne_true hq

theorem find?_filter_eq_of_imp (p q : α → Bool)
    (h : ∀ x, p x = true → q x = true) :
    ∀ l : List α, (l.filter q).find? p = l.find? p
  | [] => rfl
  | x :: xs => by
      have ih := find?_filter_eq_of_imp p q h xs
      by_cases hq : q x = true
      · rw [List.filter_cons_of_pos hq]
        by_cases hp : p x = true
        · rw [List.find?_cons_of_pos _ hp, List.find?_cons_of_pos _ hp]
        · rw [List.find?_cons_of_neg _ hp, List.find?_cons_of_neg _ hp]
          exact ih
      · have hp : p x = false := by
          cases hpx : p x
          · rfl
          · exact absurd (h x hpx) hq
        rw [List.filter_cons_of_neg hq, List.find?_cons_of_neg _ (by simp [hp])]
        exact ih

/-! ## The claims -/

/-- Claim C10: for every `user_id` with no existing user row, the field-level
user mutators `update_user_activity`, `set_premium_status`,
`set_user_admin_status`, and the referral-counter increment inside
`record_referral` leave the `users` collection completely unchanged: they
update without upsert, so no user row is created and no error is raised. -/
theorem c10_no_upsert_frame (db : Db) (now user_id : Nat) (prem : Bool)
    (duration_days : Nat) (adm : Bool) (referred_id : Nat)
    (h : ∀ u ∈ db.users, u.user_id ≠ user_id) :
    update_user_activity now user_id db = db ∧
    set_premium_status now user_id prem duration_days db = db ∧
    set_user_admin_status user_id adm db = db ∧
    (record_referral now user_id referred_id db).users = db.users := by
  have hneg : ∀ u ∈ db.users, (u.user_id == user_id) = false := by
    intro u hu
    simpa using h u hu
  refine ⟨?_, ?_, ?_, ?_⟩
  · show ({ db with users := (update_one (fun u => u.user_id == user_id)
        (fun u => { u with last_active := some now }) db.users) } : Db) = db
    rw [update_one_of_forall_neg _ _ _ hneg]
  · show ({ db with users := (update_one (fun u => u.user_id == user_id)
        (fun u => { u with is_premium := prem,
                           premium_until :=
                             if prem then some (now + duration_days * day)
                             else none }) db.users) } : Db) = db
    rw [update_one_of_forall_neg _ _ _ hneg]
  · show ({ db with users := (update_one (fun u => u.user_id == user_id)
        (fun u => { u with is_admin := adm }) db.users) } : Db) = db
    rw [update_one_of_forall_neg _ _ _ hneg]
  · show update_one (fun u => u.user_id == user_id)
        (fun u => { u with referral_count := u.referral_count + 1 }) db.users = db.users
    exact update_one_of_forall_neg _ _ _ hneg

/-- Witness for C10 at a concrete store: user 1 exists, user 2 does not. -/
theorem c10_no_upsert_frame_witness :
    update_user_activity 5 2 oneUserDb = oneUserDb ∧
    set_premium_status 5 2 true 7 oneUserDb = oneUserDb ∧
    set_user_admin_status 2 true oneUserDb = oneUserDb ∧
    (record_referral 5 2 3 oneUserDb).users = oneUserDb.users :=
  c10_no_upsert_frame oneUserDb 5 2 true 7 true 3 (by decide)

/-- Claim C7: after `reset_user_scan_counts` runs, `get_user_scan_count`
returns `0` for every key whose date differs from the current date, every
counter row whose date equals the current date keeps its exact prior count,
and a second call on the same day changes nothing. -/
theorem c7_reset_boundary (db : Db) (today : String) :
    (∀ (user_id : Nat) (scan_type date : String), date ≠ today →
      get_user_scan_count user_id scan_type date (reset_user_scan_counts today db) = 0) ∧
    (∀ (user_id : Nat) (scan_type : String),
      get_user_scan_count user_id scan_type today (reset_user_scan_counts today db) =
        get_user_scan_count user_id scan_type today db) ∧
    reset_user_scan_counts today (reset_user_scan_counts today db) =
      reset_user_scan_counts today db := by
  refine ⟨?_, ?_, ?_⟩
  · intro user_id scan_type date hdate
    show (match (db.user_scans.filter fun x => !(!(x.date == today))).find?
        (scanKeyMatch user_id scan_type date) with
      | some s => s.count
      | none => 0) = 0
    rw [find?_filter_eq_none]
    intro x hpx
    have hd : x.date = date := by
      have := hpx
      simp [scanKeyMatch] at this
      exact this.2
    simp [hd]
    exact hdate
  · intro user_id scan_type
    show (match (db.user_scans.filter fun x => !(!(x.date == today))).find?
        (scanKeyMatch user_id scan_type today) with
      | some s => s.count
      | none => 0) =
      (match db.user_scans.find? (scanKeyMatch user_id scan_type today) with
      | some s => s.count
      | none => 0)
    rw [find?_filter_eq_of_imp]
    intro x hpx
    have hd : x.date = today := by
      simp [scanKeyMatch] at hpx
      exact hpx.2
    simp [hd]
  · cases db
    simp only [reset_user_scan_counts, delete_many]
    rw [List.filter_filter]
    simp

/-- Witness for C7 at a concrete store with counters on two dates. -/
theorem c7_reset_boundary_witness :
    get_user_scan_count 1 "token" "2025-01-01"
      (reset_user_scan_counts "2025-01-02" scansDb) = 0 ∧
    get_user_scan_count 1 "token" "2025-01-02"
      (reset_user_scan_counts "2025-01-02" scansDb) =
      get_user_scan_count 1 "token" "2025-01-02" scansDb ∧
    reset_user_scan_counts "2025-01-02" (reset_user_scan_counts "2025-01-02" scansDb) =
      reset_user_scan_counts "2025-01-02" scansDb :=
  ⟨(c7_reset_boundary scansDb "2025-01-02").1 1 "token" "2025-01-01" (by decide),
   (c7_reset_boundary scansDb "2025-01-02").2.1 1 "token",
   (c7_reset_boundary scansDb "2025-01-02").2.2⟩

theorem scan_find?_iterate (db : Db) (user_id : Nat) (scan_type date : String)
    (h : db.user_scans.find? (scanKeyMatch user_id scan_type date) = none) :
    ∀ n : Nat,
      ((increment_user_scan_count user_id scan_type date)^[n] db).user_scans.find?
          (scanKeyMatch user_id scan_type date) =
        match n with
        | 0 => none
        | Nat.succ m => some { user_id := user_id, scan_type := scan_type,
                               date := date, count := m + 1 }
  | 0 => by simpa using h
  | Nat.succ n => by
      rw [Function.iterate_succ_apply']
      have prev := scan_find?_iterate db user_id scan_type date h n
      have hins : scanKeyMatch user_id scan_type date
          { user_id := user_id, scan_type := scan_type, date := date, count := 1 } = true := by
        simp [scanKeyMatch]
      show (update_one_upsert (scanKeyMatch user_id scan_type date)
          (fun s => { s with count := s.count + 1 })
          { user_id := user_id, scan_type := scan_type, date := date, count := 1 }
          (((increment_user_scan_count user_id scan_type date)^[n] db).user_scans)).find?
          (scanKeyMatch user_id scan_type date) = _
      have hf : ∀ x : ScanDoc, scanKeyMatch user_id scan_type date x = true →
          scanKeyMatch user_id scan_type date ({ x with count := x.count + 1 }) = true :=
        fun x hx => hx
      rw [find?_update_one_upsert _ _ _ hins hf, prev]
      cases n <;> rfl

/-- Claim C6: for every `(user_id, scan_type, date)` key, starting from no
counter row, calling `increment_user_scan_count` N times yields
`get_user_scan_count = N` (the first call creates the row with count 1, each
later call adds 1), and increments with a different date leave every other
date's count unchanged. -/
theorem c6_quota_monotonic (db : Db) (user_id : Nat) (scan_type date : String) :
    (db.user_scans.find? (scanKeyMatch user_id scan_type date) = none →
      ∀ n : Nat, get_user_scan_count user_id scan_type date
        ((increment_user_scan_count user_id scan_type date)^[n] db) = n) ∧
    (∀ (user_id2 : Nat) (scan_type2 date2 : String), date2 ≠ date →
      get_user_scan_count user_id2 scan_type2 date2
        (increment_user_scan_count user_id scan_type date db) =
        get_user_scan_count user_id2 scan_type2 date2 db) := by
  constructor
  · intro h n
    have key := scan_find?_iterate db user_id scan_type date h n
    show (match ((increment_user_scan_count user_id scan_type date)^[n] db).user_scans.find?
        (scanKeyMatch user_id scan_type date) with
      | some s => s.count
      | none => 0) = n
    rw [key]
    cases n <;> rfl
  · intro user_id2 scan_type2 date2 hne
    have hqins : scanKeyMatch user_id2 scan_type2 date2
        { user_id := user_id, scan_type := scan_type, date := date, count := 1 } = false := by
      simp only [scanKeyMatch]
      have hd : (date == date2) = false :=
        beq_eq_false_iff_ne.mpr fun hd => hne hd.symm
      simp [hd]
    have hqf : ∀ x : ScanDoc, scanKeyMatch user_id2 scan_type2 date2
        ({ x with count := x.count + 1 }) = scanKeyMatch user_id2 scan_type2 date2 x :=
      fun x => rfl
    have hdisj : ∀ x, scanKeyMatch user_id scan_type date x = true →
        scanKeyMatch user_id2 scan_type2 date2 x = false := by
      intro x hx
      have hd : x.date = date := by
        simp [scanKeyMatch] at hx
        exact hx.2
      simp only [scanKeyMatch]
      have hdd : (x.date == date2) = false := by
        rw [hd]
        exact beq_eq_false_iff_ne.mpr fun hdd => hne hdd.symm
      simp [hdd]
    show (match (update_one_upsert (scanKeyMatch user_id scan_type date)
        (fun s => { s with count := s.count + 1 })
        { user_id := user_id, scan_type := scan_type, date := date, count := 1 }
        db.user_scans).find? (scanKeyMatch user_id2 scan_type2 date2) with
      | some s => s.count
      | none => 0) =
      (match db.user_scans.find? (scanKeyMatch user_id2 scan_type2 date2) with
      | some s => s.count
      | none => 0)
    rw [find?_update_one_upsert_frame _ _ _ _ hqins hqf hdisj]

/-- Witness for C6: three increments on an empty store count to 3, and an
increment on `2025-01-01` leaves the `2025-01-02` counter untouched. -/
theorem c6_quota_monotonic_witness :
    emptyDb.user_scans.find? (scanKeyMatch 1 "token" "2025-01-01") = none ∧
    get_user_scan_count 1 "token" "2025-01-01"
      ((increment_user_scan_count 1 "token" "2025-01-01")^[3] emptyDb) = 3 ∧
    ("2025-01-02" : String) ≠ "2025-01-01" ∧
    get_user_scan_count 1 "token" "2025-01-02"
      (increment_user_scan_count 1 "token" "2025-01-01" scansDb) =
      get_user_scan_count 1 "token" "2025-01-02" scansDb :=
  ⟨rfl, (c6_quota_monotonic emptyDb 1 "token" "2025-01-01").1 rfl 3,
   by decide,
   (c6_quota_monotonic scansDb 1 "token" "2025-01-01").2 1 "token" "2025-01-02" (by decide)⟩

/-- Claim C4: saving an entity keyed by an address in any letter case and then
looking it up with any case variant returns the saved record: `save` stores
the key case-folded to lowercase and `get` lowercases its argument before
lookup; moreover two lookups whose arguments agree up to case always agree. -/
theorem c4_case_normalization (db : Db) (now : Nat) (token : TokenDoc)
    (wallet : WalletDoc) (v vw v1 v2 : String)
    (hv : v.lowerStr = token.address.lowerStr)
    (hvw : vw.lowerStr = wallet.address.lowerStr)
    (h12 : v1.lowerStr = v2.lowerStr) :
    get_token_data v (save_token_data now token db) =
      some { token with address := token.address.lowerStr, last_updated := now } ∧
    get_wallet_data vw (save_wallet_data now wallet db) =
      some { wallet with address := wallet.address.lowerStr, last_updated := now } ∧
    get_token_data v1 db = get_token_data v2 db ∧
    get_wallet_data v1 db = get_wallet_data v2 db := by
  refine ⟨?_, ?_, ?_, ?_⟩
  · show (update_one_upsert
        (fun t => t.address == token.address.lowerStr)
        (fun _ => { token with address := token.address.lowerStr, last_updated := now })
        { token with address := token.address.lowerStr, last_updated := now }
        db.token_data).find? (fun t => t.address == v.lowerStr) =
      some { token with address := token.address.lowerStr, last_updated := now }
    rw [hv]
    exact find?_update_one_upsert_const _ _ (by simp) db.token_data
  · show (update_one_upsert
        (fun w => w.address == wallet.address.lowerStr)
        (fun _ => { wallet with address := wallet.address.lowerStr, last_updated := now })
        { wallet with address := wallet.address.lowerStr, last_updated := now }
        db.wallet_data).find? (fun w => w.address == vw.lowerStr) =
      some { wallet with address := wallet.address.lowerStr, last_updated := now }
    rw [hvw]
    exact find?_update_one_upsert_const _ _ (by simp) db.wallet_data
  · simp only [get_token_data, h12]
  · simp only [get_wallet_data, h12]

/-- Witness for C4: save a token under "ABC" and a wallet under "DeF", read
them back under other case variants. -/
theorem c4_case_normalization_witness :
    get_token_data "abc" (save_token_data 7 sampleToken emptyDb) =
      some { sampleToken with address := "abc", last_updated := 7 } ∧
    get_wallet_data "DEF" (save_wallet_data 7 sampleWallet emptyDb) =
      some { sampleWallet with address := "def", last_updated := 7 } ∧
    get_token_data "ABC" emptyDb = get_token_data "aBc" emptyDb ∧
    get_wallet_data "ABC" emptyDb = get_wallet_data "aBc" emptyDb := by
  have h := c4_case_normalization emptyDb 7 sampleToken sampleWallet
    "abc" "DEF" "ABC" "aBc" (by decide) (by decide) (by decide)
  refine ⟨?_, ?_, h.2.2.1, h.2.2.2⟩
  · rw [h.1]
    decide
  · rw [h.2.1]
    decide

/-- Claim C3 (amended): `save_token_data` and `save_wallet_data` stamp the
stored record's `last_updated` to the current time, overwriting any prior
stamp; `save_kol_wallet` stores the record with only its address normalized
and does not touch `last_updated`. -/
theorem c3_last_updated_stamping (db : Db) (now : Nat) (token : TokenDoc)
    (wallet : WalletDoc) (kol : KOLDoc) :
    get_token_data token.address (save_token_data now token db) =
      some { token with address := token.address.lowerStr, last_updated := now } ∧
    get_wallet_data wallet.address (save_wallet_data now wallet db) =
      some { wallet with address := wallet.address.lowerStr, last_updated := now } ∧
    (save_kol_wallet now kol db).kol_wallets.find?
        (fun k => k.address == kol.address.lowerStr) =
      some { kol with address := kol.address.lowerStr } := by
  refine ⟨?_, ?_, ?_⟩
  · show (update_one_upsert
        (fun t => t.address == token.address.lowerStr)
        (fun _ => { token with address := token.address.lowerStr, last_updated := now })
        { token with address := token.address.lowerStr, last_updated := now }
        db.token_data).find? (fun t => t.address == token.address.lowerStr) =
      some { token with address := token.address.lowerStr, last_updated := now }
    exact find?_update_one_upsert_const _ _ (by simp) db.token_data
  · show (update_one_upsert
        (fun w => w.address == wallet.address.lowerStr)
        (fun _ => { wallet with address := wallet.address.lowerStr, last_updated := now })
        { wallet with address := wallet.address.lowerStr, last_updated := now }
        db.wallet_data).find? (fun w => w.address == wallet.address.lowerStr) =
      some { wallet with address := wallet.address.lowerStr, last_updated := now }
    exact find?_update_one_upsert_const _ _ (by simp) db.wallet_data
  · show (update_one_upsert
        (fun k => k.address == kol.address.lowerStr)
        (fun _ => { kol with address := kol.address.lowerStr })
        { kol with address := kol.address.lowerStr }
        db.kol_wallets).find? (fun k => k.address == kol.address.lowerStr) =
      some { kol with address := kol.address.lowerStr }
    exact find?_update_one_upsert_const _ _ (by simp) db.kol_wallets

/-- Counterexample to C3 as stated: at current time 100, `save_kol_wallet`
stores the KOL record still carrying its prior `last_updated` stamp of 5 —
the stamp is not overwritten with the current time. -/
theorem c3_claim_counterexample :
    (save_kol_wallet 100 sampleKol emptyDb).kol_wallets.find?
        (fun k => k.address == "a") =
      some { address := "a", name := "bob", last_updated := 5 } ∧
    (5 : Nat) ≠ 100 := by
  constructor
  · rfl
  · decide

/-- Claim C5: re-saving a tracking subscription under the same
`(user_id, tracking_type, normalized target_address)` key yields exactly one
stored row reflecting the last write; deleting that key removes it from the
user's list query; deleting an absent key is a no-op, not an error. -/
theorem c5_subscription_registry (db : Db) (s1 s2 : SubDoc)
    (h1 : s1.user_id = s2.user_id) (h2 : s1.tracking_type = s2.tracking_type)
    (h3 : s1.target_address.lowerStr = s2.target_address.lowerStr)
    (hc : List.countP (subKeyMatch s2.user_id s2.tracking_type s2.target_address)
        db.tracking_subscriptions ≤ 1) :
    (List.countP (subKeyMatch s2.user_id s2.tracking_type s2.target_address)
        (save_tracking_subscription s2
          (save_tracking_subscription s1 db)).tracking_subscriptions = 1) ∧
    (get_tracking_subscription s2.user_id s2.tracking_type s2.target_address
        (save_tracking_subscription s2 (save_tracking_subscription s1 db)) =
      some { s2 with target_address := s2.target_address.lowerStr }) ∧
    (∀ x ∈ get_user_tracking_subscriptions s2.user_id
        (delete_tracking_subscription s2.user_id s2.tracking_type s2.target_address
          (save_tracking_subscription s2 (save_tracking_subscription s1 db))),
      subKeyMatch s2.user_id s2.tracking_type s2.target_address x = false) ∧
    ((∀ x ∈ db.tracking_subscriptions,
        subKeyMatch s2.user_id s2.tracking_type s2.target_address x = false) →
      delete_tracking_subscription s2.user_id s2.tracking_type s2.target_address db = db) := by
  have hpred : subKeyMatch s1.user_id s1.tracking_type s1.target_address =
      subKeyMatch s2.user_id s2.tracking_type s2.target_address := by
    funext x
    simp only [subKeyMatch, h1, h2, h3]
  have hp2d2 : subKeyMatch s2.user_id s2.tracking_type s2.target_address
      { s2 with target_address := s2.target_address.lowerStr } = true := by
    simp [subKeyMatch]
  have hp2d1 : subKeyMatch s2.user_id s2.tracking_type s2.target_address
      { s1 with target_address := s1.target_address.lowerStr } = true := by
    simp [subKeyMatch, h1, h2, h3]
  have hcount1 : List.countP (subKeyMatch s2.user_id s2.tracking_type s2.target_address)
      (save_tracking_subscription s1 db).tracking_subscriptions = 1 := by
    show List.countP (subKeyMatch s2.user_id s2.tracking_type s2.target_address)
      (update_one_upsert (subKeyMatch s1.user_id s1.tracking_type s1.target_address)
        (fun _ => { s1 with target_address := s1.target_address.lowerStr })
        { s1 with target_address := s1.target_address.lowerStr }
        db.tracking_subscriptions) = 1
    rw [hpred]
    exact countP_update_one_upsert _ _ _ hp2d1 (fun _ _ => hp2d1) _ hc
  have hcount2 : List.countP (subKeyMatch s2.user_id s2.tracking_type s2.target_address)
      (save_tracking_subscription s2
        (save_tracking_subscription s1 db)).tracking_subscriptions = 1 := by
    show List.countP (subKeyMatch s2.user_id s2.tracking_type s2.target_address)
      (update_one_upsert (subKeyMatch s2.user_id s2.tracking_type s2.target_address)
        (fun _ => { s2 with target_address := s2.target_address.lowerStr })
        { s2 with target_address := s2.target_address.lowerStr }
        (save_tracking_subscription s1 db).tracking_subscriptions) = 1
    exact countP_update_one_upsert _ _ _ hp2d2 (fun _ _ => hp2d2) _ (le_of_eq hcount1)
  refine ⟨hcount2, ?_, ?_, ?_⟩
  · show (update_one_upsert (subKeyMatch s2.user_id s2.tracking_type s2.target_address)
        (fun _ => { s2 with target_address := s2.target_address.lowerStr })
        { s2 with target_address := s2.target_address.lowerStr }
        (save_tracking_subscription s1 db).tracking_subscriptions).find?
        (subKeyMatch s2.user_id s2.tracking_type s2.target_address) =
      some { s2 with target_address := s2.target_address.lowerStr }
    exact find?_update_one_upsert_const _ _ hp2d2 _
  · intro x hx
    have hx2 : x ∈ delete_one (subKeyMatch s2.user_id s2.tracking_type s2.target_address)
        (save_tracking_subscription s2
          (save_tracking_subscription s1 db)).tracking_subscriptions :=
      (List.mem_filter.1 hx).1
    exact delete_one_forall_neg_of_countP_le_one _ _ (le_of_eq hcount2) x hx2
  · intro habs
    show ({ db with tracking_subscriptions :=
        (delete_one (subKeyMatch s2.user_id s2.tracking_type s2.target_address)
          db.tracking_subscriptions) } : Db) = db
    rw [delete_one_of_forall_neg _ _ habs]

/-- Witness for C5: subscribe twice to the same key (second time inactive,
with another case of the address), then delete; also a delete on the empty
store is a no-op. -/
theorem c5_subscription_registry_witness :
    (List.countP (subKeyMatch 7 "wallet" "xY")
        (save_tracking_subscription subRe
          (save_tracking_subscription subNew emptyDb)).tracking_subscriptions = 1) ∧
    (get_tracking_subscription 7 "wallet" "xY"
        (save_tracking_subscription subRe (save_tracking_subscription subNew emptyDb)) =
      some { subRe with target_address := "xy" }) ∧
    (∀ x ∈ get_user_tracking_subscriptions 7
        (delete_tracking_subscription 7 "wallet" "xY"
          (save_tracking_subscription subRe
            (save_tracking_subscription subNew emptyDb))),
      subKeyMatch 7 "wallet" "xY" x = false) ∧
    delete_tracking_subscription 7 "wallet" "xY" emptyDb = emptyDb := by
  have h := c5_subscription_registry emptyDb subNew subRe rfl rfl (by decide) (by decide)
  refine ⟨h.1, ?_, h.2.2.1, h.2.2.2 (by decide)⟩
  exact h.2.1.trans (by decide)

/-- Claim C8: `cleanup_expired_premium` sets `is_premium := false` and
`premium_until := none` for exactly those users with `is_premium = true` and a
`premium_until` strictly earlier than now, and leaves every other user record
entirely unchanged. -/
theorem c8_expire_sweep (db : Db) (now : Nat) :
    ((cleanup_expired_premium now db).users.length = db.users.length) ∧
    (∀ (i : Nat) (u : UserDoc), db.users[i]? = some u →
      ((u.is_premium = true ∧ ∃ t, u.premium_until = some t ∧ t < now) →
        (cleanup_expired_premium now db).users[i]? =
          some { u with is_premium := false, premium_until := none }) ∧
      (¬ (u.is_premium = true ∧ ∃ t, u.premium_until = some t ∧ t < now) →
        (cleanup_expired_premium now db).users[i]? = some u)) := by
  have hget : ∀ (i : Nat) (u : UserDoc), db.users[i]? = some u →
      (cleanup_expired_premium now db).users[i]? =
        some (if premiumExpired now u = true
          then { u with is_premium := false, premium_until := none } else u) := by
    intro i u hu
    show (List.map (fun x => if premiumExpired now x = true
        then { x with is_premium := false, premium_until := none } else x) db.users)[i]? = _
    rw [List.getElem?_map, hu, Option.map_some']
  have hiff : ∀ u : UserDoc, premiumExpired now u = true ↔
      (u.is_premium = true ∧ ∃ t, u.premium_until = some t ∧ t < now) := by
    intro u
    cases hpu : u.premium_until with
    | none => simp [premiumExpired, hpu]
    | some t => simp [premiumExpired, hpu]
  refine ⟨?_, ?_⟩
  · show (List.map _ db.users).length = db.users.length
    exact List.length_map _ _
  · intro i u hu
    constructor
    · intro hcond
      rw [hget i u hu, if_pos ((hiff u).mpr hcond)]
    · intro hcond
      rw [hget i u hu, if_neg (fun hb => hcond ((hiff u).mp hb))]

/-- Witness for C8: at time 50 the sweep clears user 1 (expired at 10) and
leaves user 2 (expiring at 100) untouched. -/
theorem c8_expire_sweep_witness :
    (cleanup_expired_premium 50 premiumDb).users.length = premiumDb.users.length ∧
    (cleanup_expired_premium 50 premiumDb).users[0]? =
      some { user_id := 1, is_premium := false, premium_until := none } ∧
    (cleanup_expired_premium 50 premiumDb).users[1]? =
      some { user_id := 2, is_premium := true, premium_until := some 100 } := by
  have h := c8_expire_sweep premiumDb 50
  refine ⟨h.1, ?_, ?_⟩
  · have := (h.2 0 { user_id := 1, is_premium := true, premium_until := some 10 } rfl).1
      ⟨rfl, 10, rfl, by omega⟩
    exact this.trans (by decide)
  · exact (h.2 1 { user_id := 2, is_premium := true, premium_until := some 100 } rfl).2
      (fun hcond => by
        obtain ⟨_, t, ht, hlt⟩ := hcond
        cases ht
        omega)

/-- Claim C9: `get_users_with_expiring_premium` returns exactly the premium
users whose `premium_until` falls in the half-open window
`[now + d day, now + d day + 1 day)` for some `d` in the given (non-empty)
offset list. -/
theorem c9_expiring_window (db : Db) (now : Nat) (days_left : List Nat)
    (u : UserDoc) (hne : days_left ≠ []) :
    u ∈ get_users_with_expiring_premium now days_left db ↔
      u ∈ db.users ∧ u.is_premium = true ∧
        ∃ d ∈ days_left, ∃ t, u.premium_until = some t ∧
          now + d * day ≤ t ∧ t < now + d * day + day := by
  simp only [get_users_with_expiring_premium, List.mem_filter, Bool.and_eq_true,
    List.any_eq_true]
  cases hpu : u.premium_until with
  | none => simp [hpu]
  | some t =>
      simp only [hpu, Bool.and_eq_true, decide_eq_true_eq, Option.some.injEq]
      constructor
      · rintro ⟨hm, hp, d, hd, hge, hlt⟩
        exact ⟨hm, hp, d, hd, t, rfl, hge, hlt⟩
      · rintro ⟨hm, hp, d, hd, t2, ht2, hge, hlt⟩
        cases ht2
        exact ⟨hm, hp, d, hd, hge, hlt⟩

/-- Witness for C9: a premium user expiring one and a half days from now is
returned for offset list `[1]` but not for `[3]`. -/
theorem c9_expiring_window_witness :
    ({ user_id := 3, is_premium := true, premium_until := some 129600 } : UserDoc) ∈
      get_users_with_expiring_premium 0 [1] expiringDb ∧
    ({ user_id := 3, is_premium := true, premium_until := some 129600 } : UserDoc) ∉
      get_users_with_expiring_premium 0 [3] expiringDb := by
  constructor
  · exact (c9_expiring_window expiringDb 0 [1]
      { user_id := 3, is_premium := true, premium_until := some 129600 }
      (by decide)).mpr
      ⟨by decide, rfl, 1, by decide, 129600, rfl, by decide, by decide⟩
  · intro hmem
    obtain ⟨-, -, d, hd, t, ht, hge, hlt⟩ := (c9_expiring_window expiringDb 0 [3]
      { user_id := 3, is_premium := true, premium_until := some 129600 }
      (by decide)).mp hmem
    have hd3 : d = 3 := by simpa using hd
    subst hd3
    cases ht
    simp [day] at hge

/-- Counterexample to C1 as stated: with a failing pricing lookup, the call
inserts no transaction row, yet user 1's premium fields are already changed
from `(false, none)` to `(true, some 999)` — the user update is visible. -/
theorem c1_claim_counterexample :
    ((update_user_premium_status (fun _ _ => none) 10 1 true 999 "weekly" "eth"
        none oneUserDb).1.users.map fun u => (u.is_premium, u.premium_until)) =
      [(true, some 999)] ∧
    (oneUserDb.users.map fun u => (u.is_premium, u.premium_until)) =
      [(false, none)] ∧
    (update_user_premium_status (fun _ _ => none) 10 1 true 999 "weekly" "eth"
        none oneUserDb).1.transactions = [] := by
  refine ⟨rfl, rfl, rfl⟩

/-- Claim C1 (amended): if the pricing lookup fails, no transaction row is
inserted and the operation reports failure, but the user's premium and payment
fields have already been overwritten by the preceding update — the user write
is not rolled back. -/
theorem c1_lookup_failure_partial_write
    (lookup : String → String → Option PaymentDetails) (now user_id : Nat)
    (prem : Bool) (premium_until : Nat) (plan currency : String)
    (transaction_id : Option String) (db : Db)
    (hfail : lookup plan currency = none)
    (hc : List.countP (fun u => u.user_id == user_id) db.users ≤ 1) :
    (update_user_premium_status lookup now user_id prem premium_until plan
        currency transaction_id db).2 = false ∧
    (update_user_premium_status lookup now user_id prem premium_until plan
        currency transaction_id db).1.transactions = db.transactions ∧
    (∀ (i : Nat) (u : UserDoc), db.users[i]? = some u →
      (update_user_premium_status lookup now user_id prem premium_until plan
          currency transaction_id db).1.users[i]? =
        some (if u.user_id = user_id
          then { u with is_premium := prem, premium_until := some premium_until,
                        premium_plan := some plan,
                        payment_currency := some currency,
                        last_payment_id := transaction_id,
                        updated_at := some now }
          else u)) := by
  simp only [update_user_premium_status, hfail]
  refine ⟨trivial, trivial, ?_⟩
  intro i u hu
  have h := update_one_getElem? (fun u => u.user_id == user_id)
    (fun u => { u with is_premium := prem, premium_until := some premium_until,
                       premium_plan := some plan,
                       payment_currency := some currency,
                       last_payment_id := transaction_id,
                       updated_at := some now }) db.users i u hc hu
  rw [h]
  by_cases hid : u.user_id = user_id
  · rw [if_pos (by simpa using hid), if_pos hid]
  · rw [if_neg (by simpa using hid), if_neg hid]

/-- Witness for the amended C1 at a concrete store and failing lookup. -/
theorem c1_lookup_failure_partial_write_witness :
    (update_user_premium_status (fun _ _ => none) 10 1 true 999 "weekly" "eth"
        none oneUserDb).2 = false ∧
    (update_user_premium_status (fun _ _ => none) 10 1 true 999 "weekly" "eth"
        none oneUserDb).1.transactions = oneUserDb.transactions ∧
    (update_user_premium_status (fun _ _ => none) 10 1 true 999 "weekly" "eth"
        none oneUserDb).1.users[0]? =
      some { user_id := 1, is_premium := true, premium_until := some 999,
             premium_plan := some "weekly", payment_currency := some "eth",
             last_payment_id := none, updated_at := some 10 } := by
  have h := c1_lookup_failure_partial_write (fun _ _ => none) 10 1 true 999
    "weekly" "eth" none oneUserDb rfl (by decide)
  refine ⟨h.1, h.2.1, ?_⟩
  have h0 := h.2.2 0 { user_id := 1 } rfl
  exact h0.trans (by decide)

/-- Claim C2 is refuted by the code: recording the same referral pair twice
leaves exactly one referral edge but increments the referrer's counter twice,
from 0 to 2 — evaluation of `record_referral` at the failing input. -/
theorem c2_double_count_behavior :
    ((record_referral 20 1 2 (record_referral 10 1 2 oneUserDb)).users.map
      fun u => u.referral_count) = [2] ∧
    (record_referral 20 1 2 (record_referral 10 1 2 oneUserDb)).referrals =
      [{ referrer_id := 1, referred_id := 2, date := 20 }] := by
  refine ⟨rfl, rfl⟩
